import Mathlib

/-!
Verification of the content-safety scanner of the ClarityCare topic browser
(`src/streamlit_app.py`).  The scanner core consists of `normalize_text`
(lines 143–144), the recursive string extractor `collect` (lines 165–178)
and the per-string checks of `safety_scan_topic` (lines 180–198), driven by
the constant table `BANNED_PHRASES` (lines 18–31).

Modelling conventions: a Python string is a list of characters (`Str`);
Python's whitespace class and `str.lower` are modelled over ASCII, which is
the alphabet of the banned-phrase table and of all boundary examples.
JSON-like values are the inductive `ContentNode` (string / list / dict /
number / boolean / null); a dict is a list of key-value pairs in its
iteration order.  All definitions are executable and total.
-/

/-- Python strings, as lists of characters. -/
abbrev Str := List Char

/-- Whitespace, as matched by Python's `\s`, `str.strip()` and `str.split()`
on ASCII text: space, tab, newline, carriage return, vertical tab, form feed. -/
def isSpacePy (c : Char) : Bool :=
  c = ' ' || c = '\t' || c = '\n' || c = '\r' || c = '\x0b' || c = '\x0c'

/-- Python `str.lower()` on ASCII text: lowercase each character. -/
def lowerPy (s : Str) : Str := s.map Char.toLower

/-- Python `str.strip()`: drop leading and trailing whitespace. -/
def stripPy (s : Str) : Str :=
  ((s.dropWhile isSpacePy).reverse.dropWhile isSpacePy).reverse

/-- Helper for `re.sub(r"\s+", " ", s)`: the boolean records whether the
previous character was inside a whitespace run already replaced by `' '`. -/
def collapseAux : Bool → Str → Str
  | _, [] => []
  | inRun, c :: cs =>
    if isSpacePy c then
      if inRun then collapseAux true cs else ' ' :: collapseAux true cs
    else c :: collapseAux false cs

/-- Python `re.sub(r"\s+", " ", s)`: replace each maximal whitespace run by
a single space. -/
def collapseWS (s : Str) : Str := collapseAux false s

/-- `normalize_text` (src/streamlit_app.py lines 143–144):
`re.sub(r"\s+", " ", s).strip().lower()`. -/
def normalize_text (s : Str) : Str := lowerPy (stripPy (collapseWS s))

/-- Sentence-terminal punctuation of the long-sentence heuristic:
the character class `[.!?]` of line 189. -/
def isSentencePunct (c : Char) : Bool := c = '.' || c = '!' || c = '?'

/-- Python `re.split(r"[.!?]", s)`: the segments between occurrences of the
punctuation characters; consecutive separators yield empty segments, and the
result is never the empty list. -/
def splitPunct : Str → List Str
  | [] => [[]]
  | c :: cs =>
    if isSentencePunct c then [] :: splitPunct cs
    else
      match splitPunct cs with
      | [] => [[c]]
      | seg :: rest => (c :: seg) :: rest

/-- Helper for `len(sent.split())`: counts maximal non-whitespace runs; the
boolean records whether the previous character was inside a word. -/
def wcAux : Bool → Str → Nat
  | _, [] => 0
  | inWord, c :: cs =>
    if isSpacePy c then wcAux false cs
    else (if inWord then 0 else 1) + wcAux true cs

/-- Python `len(s.split())`: the number of whitespace-delimited words. -/
def wordCount (s : Str) : Nat := wcAux false s

/-- The excerpt attached to every warning: `s[:140]` followed by the literal
`"..."` (lines 185 and 195); the marker is appended unconditionally. -/
def excerptOf (s : Str) : Str := s.take 140 ++ ("...".data)

/-- Python's substring containment `needle in hay`: `needle` occurs as a
contiguous run of `hay` (the empty needle is contained in every string). -/
def containsSub (needle : Str) : Str → Bool
  | [] => needle.isEmpty
  | c :: t => needle.isPrefixOf (c :: t) || containsSub needle t

/-- `BANNED_PHRASES` (src/streamlit_app.py lines 18–31), in source order. -/
def BANNED_PHRASES : List Str :=
  [ "you should take".data
  , "take ".data
  , "go to the er".data
  , "don't need a doctor".data
  , "dont need a doctor".data
  , "most likely".data
  , "this means you have".data
  , "diagnosis:".data
  , "start taking".data
  , "stop taking".data
  , "dose".data
  , "dosage".data ]

/-- A warning produced by the scan, as structured data: the formatted string
`Banned phrase "<phrase>" found in: <excerpt>` carries the matched phrase and
the excerpt; `Long sentence (<N> words): <excerpt>` carries the word count
and the excerpt. -/
inductive Warning where
  | bannedPhrase (phrase : Str) (text : Str)
  | longSentence (wc : Nat) (text : Str)
deriving DecidableEq, Repr

/-- The excerpt field of a warning. -/
def Warning.text : Warning → Str
  | .bannedPhrase _ e => e
  | .longSentence _ e => e

/-- Whether a warning is a banned-phrase warning. -/
def Warning.isBannedW : Warning → Bool
  | .bannedPhrase _ _ => true
  | .longSentence _ _ => false

/-- Whether a warning is a long-sentence warning. -/
def Warning.isLongW : Warning → Bool
  | .bannedPhrase _ _ => false
  | .longSentence _ _ => true

/-- A JSON-like value, as dispatched on by `collect` (lines 165–178):
scalar string, list, dict (key-value pairs in iteration order), or one of
the remaining scalar shapes (number, boolean, null) that line 178 maps to
the empty list. -/
inductive ContentNode where
  | str : Str → ContentNode
  | seq : List ContentNode → ContentNode
  | map : List (Str × ContentNode) → ContentNode
  | num : Int → ContentNode
  | bool : Bool → ContentNode
  | null : ContentNode

mutual

/-- `collect` (src/streamlit_app.py lines 165–178): all strings in the
value, depth-first. -/
def collect : ContentNode → List Str
  | .str s => [s]
  | .seq l => collectList l
  | .map m => collectMap m
  | .num _ => []
  | .bool _ => []
  | .null => []

/-- The `for item in v: out.extend(collect(item))` loop of lines 170–171. -/
def collectList : List ContentNode → List Str
  | [] => []
  | v :: vs => collect v ++ collectList vs

/-- The `for vv in v.values(): out.extend(collect(vv))` loop of lines 175–176. -/
def collectMap : List (Str × ContentNode) → List Str
  | [] => []
  | (_, v) :: rest => collect v ++ collectMap rest

end

/-- The `for phrase in BANNED_PHRASES` loop of lines 183–186: `low` is the
lowercased string, `s` the original; on the first phrase contained in `low`
one warning is appended and the loop breaks. -/
def bannedLoop (phrases : List Str) (low s : Str) : List Warning :=
  match phrases with
  | [] => []
  | p :: ps =>
    if containsSub p low then [Warning.bannedPhrase p (excerptOf s)]
    else bannedLoop ps low s

/-- The `for sent in re.split(r"[.!?]", s)` loop of lines 189–196: each
segment is stripped, empty segments are skipped, and on the first segment of
more than 25 words one warning is appended and the loop breaks. -/
def longLoop (segs : List Str) : List Warning :=
  match segs with
  | [] => []
  | seg :: rest =>
    let sent := stripPy seg
    if sent = [] then longLoop rest
    else if 25 < wordCount sent then
      [Warning.longSentence (wordCount sent) (excerptOf sent)]
    else longLoop rest

/-- The warnings contributed by one extracted string `s`: the body of the
`for s in strings` loop of lines 181–196 (banned-phrase check, then
long-sentence check, each appending at most once). -/
def scanString (s : Str) : List Warning :=
  bannedLoop BANNED_PHRASES (lowerPy s) s ++ longLoop (splitPunct s)

/-- The `for s in strings` loop of lines 181–196 accumulating `warnings`. -/
def scanLoop : List Str → List Warning
  | [] => []
  | s :: rest => scanString s ++ scanLoop rest

/-- `safety_scan_topic` (src/streamlit_app.py lines 161–198): extract all
strings of the value, then run both checks on each in discovery order. -/
def safety_scan_topic (topic : ContentNode) : List Warning :=
  scanLoop (collect topic)

/-- Modelled from the spec (§4.2 step 2): a banned-phrase check that tests
containment of each table entry against the NORMALIZED string
(whitespace collapsed, trimmed, lowercased), as the spec's words state;
the source's check is compared against this definition. -/
def bannedCheckSpec (s : Str) : List Warning :=
  match BANNED_PHRASES.find? (fun p => containsSub p (normalize_text s)) with
  | some p => [Warning.bannedPhrase p (excerptOf s)]
  | none => []

/-! ## Helper lemmas -/

/-- The phrase loop is the first-match search over the table. -/
theorem bannedLoop_eq_find (ps : List Str) (low s : Str) :
    bannedLoop ps low s =
      match ps.find? (fun p => containsSub p low) with
      | some p => [Warning.bannedPhrase p (excerptOf s)]
      | none => [] := by
  induction ps with
  | nil => rfl
  | cons p ps ih =>
    simp only [bannedLoop, List.find?]
    cases h : containsSub p low <;> simp [h, ih]

/-- The sentence loop is the first-match search over the stripped,
nonempty segments. -/
theorem longLoop_eq_find (segs : List Str) :
    longLoop segs =
      match ((segs.map stripPy).filter (fun t => !t.isEmpty)).find?
          (fun t => 25 < wordCount t) with
      | some t => [Warning.longSentence (wordCount t) (excerptOf t)]
      | none => [] := by
  induction segs with
  | nil => rfl
  | cons seg rest ih =>
    simp only [longLoop, List.map_cons, List.filter_cons]
    by_cases h0 : stripPy seg = []
    · simp [h0, ih]
    · have h0' : (stripPy seg).isEmpty = false := by
        cases hs : stripPy seg with
        | nil => exact absurd hs h0
        | cons a t => rfl
      simp only [h0', Bool.not_false, if_true, List.find?]
      by_cases h1 : 25 < wordCount (stripPy seg)
      · simp [h0, h1]
      · simp [h0, h1, ih]

/-- The outer loop over extracted strings is a flatMap. -/
theorem scanLoop_eq_flatMap (ss : List Str) :
    scanLoop ss = ss.flatMap scanString := by
  induction ss with
  | nil => rfl
  | cons s rest ih => simp [scanLoop, ih]

/-- The list branch of `collect` concatenates the element extractions. -/
theorem collectList_eq_flatMap (l : List ContentNode) :
    collectList l = l.flatMap collect := by
  induction l with
  | nil => rfl
  | cons v vs ih => simp [collectList, ih]

/-- The dict branch of `collect` concatenates the value extractions. -/
theorem collectMap_eq_flatMap (m : List (Str × ContentNode)) :
    collectMap m = (m.map Prod.snd).flatMap collect := by
  induction m with
  | nil => rfl
  | cons kv rest ih => cases kv with
    | mk k v => simp [collectMap, ih]

/-- Every warning the phrase loop produces is a banned-phrase warning for a
matching table entry, with the excerpt built from the original string. -/
theorem bannedLoop_mem_shape (ps : List Str) (low s : Str) (w : Warning)
    (hw : w ∈ bannedLoop ps low s) :
    ∃ p, p ∈ ps ∧ containsSub p low = true ∧
      w = Warning.bannedPhrase p (excerptOf s) := by
  induction ps with
  | nil => simp [bannedLoop] at hw
  | cons p ps ih =>
    rw [bannedLoop] at hw
    by_cases h : containsSub p low
    · rw [if_pos h] at hw
      exact ⟨p, List.mem_cons_self _ _, h, by simpa using hw⟩
    · rw [if_neg h] at hw
      obtain ⟨q, hq, hc, he⟩ := ih hw
      exact ⟨q, List.mem_cons_of_mem _ hq, hc, he⟩

/-- Every warning the sentence loop produces is a long-sentence warning for
a nonempty stripped segment of more than 25 words. -/
theorem longLoop_mem_shape (segs : List Str) (w : Warning)
    (hw : w ∈ longLoop segs) :
    ∃ seg, seg ∈ segs ∧ stripPy seg ≠ [] ∧ 25 < wordCount (stripPy seg) ∧
      w = Warning.longSentence (wordCount (stripPy seg))
        (excerptOf (stripPy seg)) := by
  induction segs with
  | nil => simp [longLoop] at hw
  | cons seg rest ih =>
    rw [longLoop] at hw
    by_cases h0 : stripPy seg = []
    · rw [if_pos h0] at hw
      obtain ⟨t, ht, h⟩ := ih hw
      exact ⟨t, List.mem_cons_of_mem _ ht, h⟩
    · rw [if_neg h0] at hw
      by_cases h1 : 25 < wordCount (stripPy seg)
      · rw [if_pos h1] at hw
        exact ⟨seg, List.mem_cons_self _ _, h0, h1, by simpa using hw⟩
      · rw [if_neg h1] at hw
        obtain ⟨t, ht, h⟩ := ih hw
        exact ⟨t, List.mem_cons_of_mem _ ht, h⟩

/-- Every character of a contained needle occurs in the haystack. -/
theorem containsSub_subset (p : Str) : ∀ l : Str, containsSub p l = true →
    ∀ c ∈ p, c ∈ l := by
  intro l
  induction l with
  | nil =>
    intro h c hc
    cases p with
    | nil => simp at hc
    | cons a t => simp [containsSub] at h
  | cons d t ih =>
    intro h c hc
    simp only [containsSub, Bool.or_eq_true] at h
    cases h with
    | inl hp => exact (List.isPrefixOf_iff_prefix.mp hp).subset hc
    | inr ht => exact List.mem_cons_of_mem _ (ih ht c hc)

/-- Splitting never returns the empty list of segments. -/
theorem splitPunct_ne_nil (s : Str) : splitPunct s ≠ [] := by
  induction s with
  | nil => simp [splitPunct]
  | cons c cs ih =>
    rw [splitPunct]
    by_cases h : isSentencePunct c
    · simp [h]
    · rw [if_neg (by simp [h])]
      cases hs : splitPunct cs with
      | nil => simp
      | cons a t => simp

/-- Every character of every segment of a split comes from the split string. -/
theorem splitPunct_subset (s : Str) : ∀ seg ∈ splitPunct s, ∀ c ∈ seg, c ∈ s := by
  induction s with
  | nil =>
    intro seg hseg c hc
    simp [splitPunct] at hseg
    subst hseg
    simp at hc
  | cons d cs ih =>
    intro seg hseg c hc
    rw [splitPunct] at hseg
    by_cases h : isSentencePunct d
    · rw [if_pos h] at hseg
      rcases List.mem_cons.mp hseg with h1 | h2
      · subst h1; simp at hc
      · exact List.mem_cons_of_mem _ (ih seg h2 c hc)
    · rw [if_neg (by simp [h])] at hseg
      cases hs : splitPunct cs with
      | nil => exact absurd hs (splitPunct_ne_nil cs)
      | cons s0 rest =>
        rw [hs] at hseg
        have hs0 : s0 ∈ splitPunct cs := by rw [hs]; exact List.mem_cons_self _ _
        rcases List.mem_cons.mp hseg with h1 | h2
        · subst h1
          rcases List.mem_cons.mp hc with hc1 | hc2
          · subst hc1; exact List.mem_cons_self _ _
          · exact List.mem_cons_of_mem _ (ih s0 hs0 c hc2)
        · have hseg' : seg ∈ splitPunct cs := by
            rw [hs]; exact List.mem_cons_of_mem _ h2
          exact List.mem_cons_of_mem _ (ih seg hseg' c hc)

/-- Lowercasing fixes whitespace characters. -/
theorem toLower_space (c : Char) (h : isSpacePy c = true) :
    Char.toLower c = c := by
  have h' : c = ' ' ∨ c = '\t' ∨ c = '\n' ∨ c = '\r' ∨ c = '\x0b' ∨ c = '\x0c' := by
    simpa [isSpacePy, or_assoc] using h
  rcases h' with h' | h' | h' | h' | h' | h' <;> subst h' <;> decide

/-- Stripping an all-whitespace string yields the empty string. -/
theorem stripPy_all_space (s : Str) (h : ∀ c ∈ s, isSpacePy c = true) :
    stripPy s = [] := by
  have h1 : s.dropWhile isSpacePy = [] := List.dropWhile_eq_nil_iff.mpr h
  simp [stripPy, h1]

/-- Every banned phrase contains a non-whitespace character. -/
theorem phrase_nonspace : ∀ p ∈ BANNED_PHRASES, ∃ c ∈ p, isSpacePy c = false := by
  decide

/-! ## Claims -/

/-- C1, counterexample: on the string `"take\taspirin"` the claimed check
disagrees with the code.  The normalized form `"take aspirin"` contains the
table entry `"take "`, so a check over the normalized form flags the string,
yet the scan of lines 181–186 — which matches against `s.lower()` only,
never calling `normalize_text` — emits no warning at all. -/
theorem C1_counterexample :
    containsSub ("take ".data) (normalize_text ("take\taspirin").data) = true ∧
    bannedCheckSpec ("take\taspirin").data ≠
      bannedLoop BANNED_PHRASES (lowerPy ("take\taspirin").data)
        ("take\taspirin").data ∧
    safety_scan_topic (.str ("take\taspirin").data) = [] := by
  decide

/-- C1, amended: for every extracted string, the banned-phrase check tests
substring containment against the LOWERCASED original string — lowercasing
only, with no whitespace collapsing and no trimming — and the reported
excerpt is built from the original, un-lowercased string. -/
theorem C1_banned_check_lowercases_only (s : Str) :
    bannedLoop BANNED_PHRASES (lowerPy s) s =
      match BANNED_PHRASES.find? (fun p => containsSub p (lowerPy s)) with
      | some p => [Warning.bannedPhrase p (excerptOf s)]
      | none => [] :=
  bannedLoop_eq_find _ _ _

/-- C2: `collect` extracts exactly the scalar string leaves in depth-first
order: a string yields a singleton, a list concatenates its elements'
extractions in order, a dict concatenates its values' extractions in
iteration order with keys ignored, and every other node yields nothing. -/
theorem C2_collect_depth_first :
    (∀ s : Str, collect (.str s) = [s]) ∧
    (∀ l : List ContentNode, collect (.seq l) = l.flatMap collect) ∧
    (∀ m : List (Str × ContentNode),
      collect (.map m) = (m.map Prod.snd).flatMap collect) ∧
    (∀ n : Int, collect (.num n) = []) ∧
    (∀ b : Bool, collect (.bool b) = []) ∧
    collect .null = [] := by
  refine ⟨fun s => rfl, fun l => ?_, fun m => ?_, fun n => rfl, fun b => rfl, rfl⟩
  · simpa [collect] using collectList_eq_flatMap l
  · simpa [collect] using collectMap_eq_flatMap m

/-- C3, counterexample: the extracted string `"dont\tneed a doctor"` has a
normalized form containing the table entry `"dont need a doctor"`, yet the
scan emits zero banned-phrase warnings for it, because the code matches
against the merely lowercased string, in which the tab survives. -/
theorem C3_counterexample :
    ("dont need a doctor".data ∈ BANNED_PHRASES) ∧
    containsSub ("dont need a doctor".data)
      (normalize_text ("dont\tneed a doctor").data) = true ∧
    (safety_scan_topic (.str ("dont\tneed a doctor").data)).countP
      Warning.isBannedW = 0 := by
  decide

/-- C3, amended: for every extracted string whose LOWERCASED form contains
at least one entry of the table, the scan emits exactly one banned-phrase
warning for that string, and the phrase it reports is the first entry in
table order that matches; further entries are not checked. -/
theorem C3_first_match_only (s : Str)
    (h : ∃ p ∈ BANNED_PHRASES, containsSub p (lowerPy s) = true) :
    (scanString s).countP Warning.isBannedW = 1 ∧
    ∀ p e, Warning.bannedPhrase p e ∈ scanString s →
      BANNED_PHRASES.find? (fun q => containsSub q (lowerPy s)) = some p := by
  have hf : (BANNED_PHRASES.find? (fun p => containsSub p (lowerPy s))).isSome := by
    rw [List.find?_isSome]
    simpa using h
  obtain ⟨q, hq⟩ := Option.isSome_iff_exists.mp hf
  have hb : bannedLoop BANNED_PHRASES (lowerPy s) s =
      [Warning.bannedPhrase q (excerptOf s)] := by
    rw [bannedLoop_eq_find, hq]
  refine ⟨?_, ?_⟩
  · rw [scanString, List.countP_append, hb]
    have hl : (longLoop (splitPunct s)).countP Warning.isBannedW = 0 := by
      rw [List.countP_eq_zero]
      intro w hw
      obtain ⟨seg, -, -, -, hweq⟩ := longLoop_mem_shape _ _ hw
      simp [hweq, Warning.isBannedW]
    rw [hl]
    simp [Warning.isBannedW]
  · intro p e hmem
    rw [scanString] at hmem
    rcases List.mem_append.mp hmem with hin | hin
    · rw [hb] at hin
      simp only [List.mem_singleton] at hin
      injection hin with h1 h2
      rw [h1]
      exact hq
    · obtain ⟨seg, -, -, -, hweq⟩ := longLoop_mem_shape _ _ hin
      exact absurd hweq (by simp)

/-- Witness for C3: `"stop taking it"` contains the table entry
`"stop taking"`; exactly one banned-phrase warning results and the search
finds `"stop taking"` first. -/
theorem C3_witness :
    (scanString ("stop taking it").data).countP Warning.isBannedW = 1 ∧
    BANNED_PHRASES.find?
        (fun q => containsSub q (lowerPy ("stop taking it").data)) =
      some ("stop taking".data) := by
  have h := C3_first_match_only ("stop taking it").data
    ⟨"stop taking".data, by decide, by decide⟩
  exact ⟨h.1, h.2 ("stop taking".data)
    (excerptOf ("stop taking it").data) (by decide)⟩

/-- C4: the long-sentence check returns the first stripped, nonempty segment
of the punctuation split whose word count strictly exceeds 25, carrying that
word count, and nothing otherwise; a 25-word sentence yields no warning and
a 26-word sentence yields one. -/
theorem C4_long_sentence_check :
    (∀ s : Str,
      longLoop (splitPunct s) =
        match (((splitPunct s).map stripPy).filter
            (fun t => !t.isEmpty)).find? (fun t => 25 < wordCount t) with
        | some t => [Warning.longSentence (wordCount t) (excerptOf t)]
        | none => []) ∧
    scanString ("w w w w w w w w w w w w w w w w w w w w w w w w w").data
      = [] ∧
    scanString ("w w w w w w w w w w w w w w w w w w w w w w w w w w").data
      = [Warning.longSentence 26
          (("w w w w w w w w w w w w w w w w w w w w w w w w w w").data ++
            "...".data)] := by
  refine ⟨fun s => longLoop_eq_find _, by decide, by decide⟩

/-- C5: every warning's excerpt is the first 140 characters of the relevant
source text — the whole original string for a banned-phrase warning, the
stripped segment for a long-sentence warning — with `"..."` appended
unconditionally; in particular the 4-character string `"dose"` is reported
with excerpt `"dose..."`. -/
theorem C5_excerpt_truncation :
    (∀ s : Str, ∀ w ∈ scanString s,
      (∃ p, w = Warning.bannedPhrase p (s.take 140 ++ "...".data)) ∨
      (∃ seg ∈ (splitPunct s).map stripPy,
        w = Warning.longSentence (wordCount seg) (seg.take 140 ++ "...".data))) ∧
    safety_scan_topic (.str "dose".data) =
      [Warning.bannedPhrase ("dose".data) ("dose...".data)] := by
  refine ⟨?_, by decide⟩
  intro s w hw
  rw [scanString] at hw
  rcases List.mem_append.mp hw with hin | hin
  · obtain ⟨p, -, -, hweq⟩ := bannedLoop_mem_shape _ _ _ _ hin
    exact Or.inl ⟨p, by simpa [excerptOf] using hweq⟩
  · obtain ⟨seg, hseg, -, -, hweq⟩ := longLoop_mem_shape _ _ hin
    exact Or.inr ⟨stripPy seg, List.mem_map_of_mem _ hseg,
      by simpa [excerptOf] using hweq⟩

/-- Witness for C5: the banned-phrase warning for the string `"dose"`
carries the excerpt built from the original string and the marker. -/
theorem C5_witness :
    (∃ p, Warning.bannedPhrase ("dose".data) ("dose...".data) =
      Warning.bannedPhrase p (("dose".data).take 140 ++ "...".data)) ∨
    (∃ seg ∈ (splitPunct "dose".data).map stripPy,
      Warning.bannedPhrase ("dose".data) ("dose...".data) =
        Warning.longSentence (wordCount seg) (seg.take 140 ++ "...".data)) :=
  C5_excerpt_truncation.1 ("dose".data)
    (Warning.bannedPhrase ("dose".data) ("dose...".data)) (by decide)

/-- C6: the warning sequence is in discovery order: the scan is the in-order
concatenation, over the depth-first list of extracted strings, of each
string's warnings, and within one string the banned-phrase check's output
(only banned-phrase warnings) precedes the long-sentence check's output
(only long-sentence warnings). -/
theorem C6_discovery_order :
    (∀ t : ContentNode,
      safety_scan_topic t = (collect t).flatMap scanString) ∧
    (∀ s : Str, scanString s =
      bannedLoop BANNED_PHRASES (lowerPy s) s ++ longLoop (splitPunct s)) ∧
    (∀ s : Str, ∀ w ∈ bannedLoop BANNED_PHRASES (lowerPy s) s,
      w.isBannedW = true) ∧
    (∀ s : Str, ∀ w ∈ longLoop (splitPunct s), w.isLongW = true) := by
  refine ⟨fun t => scanLoop_eq_flatMap _, fun s => rfl,
    fun s w hw => ?_, fun s w hw => ?_⟩
  · obtain ⟨p, -, -, hweq⟩ := bannedLoop_mem_shape _ _ _ _ hw
    simp [hweq, Warning.isBannedW]
  · obtain ⟨seg, -, -, -, hweq⟩ := longLoop_mem_shape _ _ hw
    simp [hweq, Warning.isLongW]

/-- Witness for C6: the banned-phrase warning produced for `"dose"` is of
banned-phrase kind, and the long-sentence warning produced for a 26-word
sentence is of long-sentence kind. -/
theorem C6_witness :
    (Warning.bannedPhrase ("dose".data) ("dose...".data)).isBannedW = true ∧
    (Warning.longSentence 26
      (("w w w w w w w w w w w w w w w w w w w w w w w w w w").data ++
        "...".data)).isLongW = true :=
  ⟨C6_discovery_order.2.2.1 ("dose".data)
      (Warning.bannedPhrase ("dose".data) ("dose...".data)) (by decide),
   C6_discovery_order.2.2.2
      (("w w w w w w w w w w w w w w w w w w w w w w w w w w").data)
      (Warning.longSentence 26
        (("w w w w w w w w w w w w w w w w w w w w w w w w w w").data ++
          "...".data)) (by decide)⟩

/-- C7: the scan is total and silently skips non-string scalars: numbers,
booleans and null contribute no strings and no warnings, and a dict field
holding such a value is skipped while string fields are still extracted. -/
theorem C7_non_strings_skipped (n : Int) (b : Bool) (k s : Str)
    (m : List (Str × ContentNode)) :
    collect (.num n) = [] ∧ collect (.bool b) = [] ∧ collect .null = [] ∧
    safety_scan_topic (.num n) = [] ∧ safety_scan_topic (.bool b) = [] ∧
    safety_scan_topic .null = [] ∧
    collect (.map ((k, .num n) :: m)) = collect (.map m) ∧
    collect (.map ((k, .str s) :: m)) = s :: collect (.map m) := by
  refine ⟨rfl, rfl, rfl, rfl, rfl, rfl, ?_, ?_⟩
  · simp [collect, collectMap]
  · simp [collect, collectMap]

/-- C8: a scan is a pure function of the extracted strings and the fixed
policy tables: any two topics with the same depth-first string list receive
identical warning sequences (the embedding is a total function of the topic
alone, so scanning twice returns the same sequence and nothing is mutated). -/
theorem C8_pure_function_of_strings (t t' : ContentNode)
    (h : collect t = collect t') :
    safety_scan_topic t = safety_scan_topic t' := by
  rw [safety_scan_topic, safety_scan_topic, h]

/-- Witness for C8: a bare string root and a list root with the same single
string leaf produce identical warning sequences. -/
theorem C8_witness :
    safety_scan_topic (.str "hi".data) =
      safety_scan_topic (.seq [.str "hi".data, .num 3]) :=
  C8_pure_function_of_strings _ _ (by decide)

/-- C9: the scan is well-defined at any JSON-like root: a bare string root
is scanned by the two per-string checks, a list root scans the list's
string leaves in order, and a number, boolean or null root yields no
warnings. -/
theorem C9_any_root (s : Str) (l : List ContentNode) (n : Int) (b : Bool) :
    safety_scan_topic (.str s) = scanString s ∧
    safety_scan_topic (.seq l) = (collectList l).flatMap scanString ∧
    safety_scan_topic (.num n) = [] ∧
    safety_scan_topic (.bool b) = [] ∧
    safety_scan_topic .null = [] := by
  refine ⟨?_, ?_, rfl, rfl, rfl⟩
  · simp [safety_scan_topic, collect, scanLoop]
  · simp [safety_scan_topic, collect, scanLoop_eq_flatMap]

/-- C10: an extracted string that is empty or all whitespace contributes no
warnings: no banned phrase is contained in its lowercased form, and every
segment of the sentence split strips to the empty string. -/
theorem C10_whitespace_only_no_warnings (s : Str)
    (h : ∀ c ∈ s, isSpacePy c = true) :
    scanString s = [] := by
  rw [scanString]
  have hb : bannedLoop BANNED_PHRASES (lowerPy s) s = [] := by
    rw [bannedLoop_eq_find]
    cases hf : BANNED_PHRASES.find? (fun p => containsSub p (lowerPy s)) with
    | none => rfl
    | some p =>
      exfalso
      have hp : p ∈ BANNED_PHRASES := List.mem_of_find?_eq_some hf
      have hc : containsSub p (lowerPy s) = true := by
        simpa using List.find?_some hf
      obtain ⟨c, hcp, hcs⟩ := phrase_nonspace p hp
      have hcl : c ∈ lowerPy s := containsSub_subset _ _ hc c hcp
      obtain ⟨d, hd, hde⟩ := List.mem_map.mp hcl
      have hds : isSpacePy d = true := h d hd
      have hfix : Char.toLower d = d := toLower_space d hds
      rw [← hde, hfix, hds] at hcs
      exact absurd hcs (by simp)
  have hl : longLoop (splitPunct s) = [] := by
    rw [longLoop_eq_find]
    have hfilter : ((splitPunct s).map stripPy).filter
        (fun t => !t.isEmpty) = [] := by
      rw [List.filter_eq_nil_iff]
      intro t ht
      obtain ⟨seg, hseg, rfl⟩ := List.mem_map.mp ht
      have hsegspace : ∀ c ∈ seg, isSpacePy c = true :=
        fun c hc => h c (splitPunct_subset s seg hseg c hc)
      simp [stripPy_all_space seg hsegspace]
    rw [hfilter]
    rfl
  rw [hb, hl]
  rfl

/-- Witness for C10: the tab-and-spaces string contributes no warnings. -/
theorem C10_witness :
    (∀ c ∈ ("\t  ").data, isSpacePy c = true) ∧
    scanString ("\t  ").data = [] :=
  ⟨by decide, C10_whitespace_only_no_warnings _ (by decide)⟩
